import Mathlib

/-!
Verification of the weather/news aggregation service.

The JavaScript source is shallowly embedded: dynamic JS values that the
validated code inspects are modelled by `JsVal` (undefined, null, number,
string), JS numbers by `ℚ`, fallible functions by `Except`, the relational
store by a Lean list of rows, and host facilities (date parsing, the
current time) by explicit parameters.
-/

deriving instance DecidableEq for Except

/-- A JavaScript value as far as the validation code inspects it:
`undefined`, `null`, a number, or a string. -/
inductive JsVal where
  | undef
  | null
  | num (q : ℚ)
  | str (s : String)
deriving DecidableEq, Repr

namespace JsVal

/-- JS truthiness for the values we model: `undefined`, `null`, `0` and
the empty string are falsy. -/
def truthy : JsVal → Bool
  | .undef => false
  | .null => false
  | .num q => q != 0
  | .str s => s != ""

end JsVal

/-! ### `sanitizeString` (src/repositories/weather/utils.js and
src/repositories/news/utils.js — identical bodies)

The four replacement passes of the source are modelled over `List Char`.
The fuel arguments make the scans structurally terminating; each step of a
scan consumes at least one character, so fuel equal to the input length is
always sufficient. -/

/-- JS `\w`: `[A-Za-z0-9_]`. -/
def isWordChar (c : Char) : Bool := c.isAlphanum || c == '_'

/-- Case-insensitive literal match: if `l` starts with `pat` (comparing
lower-cased characters), return the remainder of `l`. -/
def matchCI : List Char → List Char → Option (List Char)
  | [], l => some l
  | _ :: _, [] => none
  | p :: ps, c :: cs => if p.toLower == c.toLower then matchCI ps cs else none

/-- Scan for the closing `</script>` (case-insensitive) and return the
remainder after it, as the regex
`<script\b[^<]*(?:(?!<\/script>)<[^<]*)*<\/script>` consumes everything up
to and including the nearest closing tag. -/
def dropCloseScript : List Char → Option (List Char)
  | [] => none
  | c :: rest =>
    match matchCI "</script>".data (c :: rest) with
    | some after => some after
    | none => dropCloseScript rest

/-- One global pass of `value.replace(/<script\b[^<]*(?:(?!<\/script>)<[^<]*)*<\/script>/gi, '')`. -/
def stripScriptTagsAux : ℕ → List Char → List Char
  | 0, l => l
  | _ + 1, [] => []
  | n + 1, c :: rest =>
    match matchCI "<script".data (c :: rest) with
    | some after =>
      -- `\b`: the character after `<script` must not be a word character
      if (after.head?.map isWordChar).getD false then
        c :: stripScriptTagsAux n rest
      else
        match dropCloseScript after with
        | some rest' => stripScriptTagsAux n rest'
        | none => c :: stripScriptTagsAux n rest
    | none => c :: stripScriptTagsAux n rest

/-- `sanitized.replace(/javascript:/gi, '')` (and any other global
case-insensitive literal removal). -/
def removeAllCIAux (pat : List Char) : ℕ → List Char → List Char
  | 0, l => l
  | _ + 1, [] => []
  | n + 1, c :: cs =>
    match matchCI pat (c :: cs) with
    | some after => removeAllCIAux pat n after
    | none => c :: removeAllCIAux pat n cs

/-- Longest run of word characters at the front of the list. -/
def dropWordRun : List Char → ℕ × List Char
  | [] => (0, [])
  | c :: cs =>
    if isWordChar c then
      let r := dropWordRun cs
      (r.1 + 1, r.2)
    else (0, c :: cs)

/-- `sanitized.replace(/on\w+=/gi, '')`: `on`, at least one word
character, then `=`. -/
def removeOnAttrAux : ℕ → List Char → List Char
  | 0, l => l
  | _ + 1, [] => []
  | n + 1, c :: cs =>
    match matchCI ['o', 'n'] (c :: cs) with
    | some after =>
      let r := dropWordRun after
      if r.1 > 0 then
        match r.2 with
        | '=' :: rest => removeOnAttrAux n rest
        | _ => c :: removeOnAttrAux n cs
      else c :: removeOnAttrAux n cs
    | none => c :: removeOnAttrAux n cs

/-- `sanitized.replace(/['";\\]/g, match => '\\' + match)`. -/
def escapeSqlChars : List Char → List Char
  | [] => []
  | c :: cs =>
    if c == '\'' || c == '"' || c == ';' || c == '\\' then
      '\\' :: c :: escapeSqlChars cs
    else c :: escapeSqlChars cs

/-- `sanitizeString` on an actual string: the four passes in source
order. -/
def sanitizeStr (s : String) : String :=
  let l1 := stripScriptTagsAux s.data.length s.data
  let l2 := removeAllCIAux "javascript:".data l1.length l1
  let l3 := removeOnAttrAux l2.length l2
  String.mk (escapeSqlChars l3)

/-- `sanitizeString(value)`: non-strings are returned unchanged. -/
def sanitizeString : JsVal → JsVal
  | .str s => .str (sanitizeStr s)
  | v => v

/-! ### Weather data validation (src/repositories/weather/utils.js)

`WeatherData` is the object handed to `validateWeatherData`; every field
is a dynamic JS value. Host date parsing (`new Date(string)`) and the
current time (`new Date()`, in epoch milliseconds) are explicit
parameters. -/

/-- The seventeen fields of a weather record. -/
inductive WField where
  | provider | city | country | latitude | longitude
  | temperature | feelsLike | tempMin | tempMax
  | humidity | pressure | windSpeed | windDirection
  | conditionMain | conditionDescription | conditionIcon | timestamp
deriving DecidableEq, Repr

/-- JS property name of a field. -/
def WField.name : WField → String
  | .provider => "provider"
  | .city => "city"
  | .country => "country"
  | .latitude => "latitude"
  | .longitude => "longitude"
  | .temperature => "temperature"
  | .feelsLike => "feelsLike"
  | .tempMin => "tempMin"
  | .tempMax => "tempMax"
  | .humidity => "humidity"
  | .pressure => "pressure"
  | .windSpeed => "windSpeed"
  | .windDirection => "windDirection"
  | .conditionMain => "conditionMain"
  | .conditionDescription => "conditionDescription"
  | .conditionIcon => "conditionIcon"
  | .timestamp => "timestamp"

/-- The object passed to `validateWeatherData`. -/
structure WeatherData where
  provider : JsVal := .undef
  city : JsVal := .undef
  country : JsVal := .undef
  latitude : JsVal := .undef
  longitude : JsVal := .undef
  temperature : JsVal := .undef
  feelsLike : JsVal := .undef
  tempMin : JsVal := .undef
  tempMax : JsVal := .undef
  humidity : JsVal := .undef
  pressure : JsVal := .undef
  windSpeed : JsVal := .undef
  windDirection : JsVal := .undef
  conditionMain : JsVal := .undef
  conditionDescription : JsVal := .undef
  conditionIcon : JsVal := .undef
  timestamp : JsVal := .undef
deriving DecidableEq, Repr

/-- `data[field]`. -/
def WeatherData.get (d : WeatherData) : WField → JsVal
  | .provider => d.provider
  | .city => d.city
  | .country => d.country
  | .latitude => d.latitude
  | .longitude => d.longitude
  | .temperature => d.temperature
  | .feelsLike => d.feelsLike
  | .tempMin => d.tempMin
  | .tempMax => d.tempMax
  | .humidity => d.humidity
  | .pressure => d.pressure
  | .windSpeed => d.windSpeed
  | .windDirection => d.windDirection
  | .conditionMain => d.conditionMain
  | .conditionDescription => d.conditionDescription
  | .conditionIcon => d.conditionIcon
  | .timestamp => d.timestamp

/-- `if (sanitizedData.provider) sanitizedData.provider = sanitizeString(...)`. -/
def sanProvider (d : WeatherData) : WeatherData :=
  if d.provider.truthy then { d with provider := sanitizeString d.provider } else d

def sanCity (d : WeatherData) : WeatherData :=
  if d.city.truthy then { d with city := sanitizeString d.city } else d

def sanCountry (d : WeatherData) : WeatherData :=
  if d.country.truthy then { d with country := sanitizeString d.country } else d

def sanConditionMain (d : WeatherData) : WeatherData :=
  if d.conditionMain.truthy then { d with conditionMain := sanitizeString d.conditionMain } else d

def sanConditionDescription (d : WeatherData) : WeatherData :=
  if d.conditionDescription.truthy then
    { d with conditionDescription := sanitizeString d.conditionDescription }
  else d

def sanConditionIcon (d : WeatherData) : WeatherData :=
  if d.conditionIcon.truthy then { d with conditionIcon := sanitizeString d.conditionIcon } else d

/-- The six conditional sanitizations applied to the shallow copy, in
source order. -/
def sanitizeWeatherFields (d : WeatherData) : WeatherData :=
  sanConditionIcon (sanConditionDescription (sanConditionMain (sanCountry (sanCity (sanProvider d)))))

/-- The `requiredFields` array, in source order. -/
def requiredFields : List WField :=
  [.provider, .city, .country, .latitude, .longitude,
   .temperature, .feelsLike, .tempMin, .tempMax,
   .humidity, .pressure, .windSpeed, .windDirection,
   .conditionMain, .conditionDescription, .conditionIcon, .timestamp]

/-- `value === undefined || value === null || value === ''`. -/
def isMissing : JsVal → Bool
  | .undef => true
  | .null => true
  | .str s => s == ""
  | .num _ => false

/-- The `provider` entry of the `validations` loop: string type check,
then membership in the allowed set. -/
def checkProvider (d : WeatherData) : Except String Unit :=
  match d.provider with
  | .undef => .ok ()
  | .null => .ok ()
  | .str s =>
    if s = "openweathermap" ∨ s = "accuweather" then .ok ()
    else .error "Invalid provider: must be one of openweathermap, accuweather"
  | .num _ => .error "Invalid provider: must be a string"

/-- `new Date(value).getTime()` in epoch milliseconds: numbers are taken
as-is, strings go through the host date parser. -/
def jsDateMillis (parseDate : String → Option ℚ) : JsVal → Option ℚ
  | .num q => some q
  | .str s => parseDate s
  | _ => none

/-- The `timestamp` entry of the `validations` loop: date validity, then
the 24-hour future bound (`maxFutureHours * 60 * 60 * 1000`). -/
def checkTimestamp (parseDate : String → Option ℚ) (now : ℚ) (d : WeatherData) :
    Except String Unit :=
  match d.timestamp with
  | .undef => .ok ()
  | .null => .ok ()
  | v =>
    match jsDateMillis parseDate v with
    | none => .error "Invalid timestamp: must be a valid date"
    | some m =>
      if m > now + 24 * 60 * 60 * 1000 then
        .error "Timestamp cannot be more than 24 hours in the future"
      else .ok ()

/-- One entry of `rangeValidations`. -/
structure RangeRule where
  field : WField
  min : ℤ
  max : ℤ
deriving DecidableEq, Repr

/-- The `rangeValidations` array of `validateNumericRanges`, in source
order. -/
def rangeValidations : List RangeRule :=
  [⟨.temperature, -100, 70⟩, ⟨.feelsLike, -100, 70⟩, ⟨.humidity, 0, 100⟩,
   ⟨.pressure, 800, 1200⟩, ⟨.windSpeed, 0, 150⟩, ⟨.windDirection, 0, 360⟩]

/-- One iteration of the `validateNumericRanges` loop: skip absent
values, then number type check, then the min and max bounds. -/
def checkRange (d : WeatherData) (r : RangeRule) : Except String Unit :=
  match d.get r.field with
  | .undef => .ok ()
  | .null => .ok ()
  | .num q =>
    if q < (r.min : ℚ) then
      .error ("Invalid " ++ r.field.name ++ ": minimum value is " ++ toString r.min)
    else if q > (r.max : ℚ) then
      .error ("Invalid " ++ r.field.name ++ ": maximum value is " ++ toString r.max)
    else .ok ()
  | .str _ => .error ("Invalid " ++ r.field.name ++ ": must be a number")

/-- The `validateNumericRanges` loop over a rule list. -/
def runRangeChecks (d : WeatherData) : List RangeRule → Except String Unit
  | [] => .ok ()
  | r :: rest =>
    match checkRange d r with
    | .ok _ => runRangeChecks d rest
    | .error e => .error e

/-- `validateNumericRanges(data)`. -/
def validateNumericRanges (d : WeatherData) : Except String Unit :=
  runRangeChecks d rangeValidations

/-- `validateWeatherData(data)`: sanitize a shallow copy, check required
fields, run the type/allowed/date validations, run the numeric range
checks, and return the sanitized copy. -/
def validateWeatherData (parseDate : String → Option ℚ) (now : ℚ) (d : WeatherData) :
    Except String WeatherData :=
  let s := sanitizeWeatherFields d
  let missing := requiredFields.filter (fun f => isMissing (s.get f))
  if missing.isEmpty then
    match checkProvider s with
    | .error e => .error e
    | .ok _ =>
      match checkTimestamp parseDate now s with
      | .error e => .error e
      | .ok _ =>
        match validateNumericRanges s with
        | .error e => .error e
        | .ok _ => .ok s
  else
    .error ("Missing required fields: " ++ String.intercalate ", " (missing.map WField.name))

/-! ### Mutation model for `validateWeatherData` (frame property)

JS objects live on a heap of addresses; `validateWeatherData` receives a
reference, spreads it into a freshly allocated copy, mutates only the
copy, and returns the copy. -/

/-- A heap of JS objects. -/
def Heap : Type := ℕ → Option WeatherData

/-- Write an object at an address. -/
def writeH (h : Heap) (a : ℕ) (d : WeatherData) : Heap :=
  fun x => if x = a then some d else h x

/-- In-place field update `obj.f = ...` at an address. -/
def writeField (h : Heap) (a : ℕ) (f : WeatherData → WeatherData) : Heap :=
  match h a with
  | some d => writeH h a (f d)
  | none => h

/-- `validateWeatherData` over the heap: `src` is the caller's object,
`dst` the address allocated for `{ ...data }`. The six sanitizations are
in-place writes to `dst`; the original is only ever read. Returns the
result (the address of the sanitized copy on success, the thrown message
otherwise) and the final heap. -/
def validateWeatherDataHeap (parseDate : String → Option ℚ) (now : ℚ)
    (h : Heap) (src dst : ℕ) : Except String ℕ × Heap :=
  match h src with
  | none => (.error "Invalid data: Expected an object", h)
  | some d =>
    let h1 := writeH h dst d
    let h2 := writeField h1 dst sanProvider
    let h3 := writeField h2 dst sanCity
    let h4 := writeField h3 dst sanCountry
    let h5 := writeField h4 dst sanConditionMain
    let h6 := writeField h5 dst sanConditionDescription
    let h7 := writeField h6 dst sanConditionIcon
    match h7 dst with
    | none => (.error "Invalid data: Expected an object", h7)
    | some s =>
      let missing := requiredFields.filter (fun f => isMissing (s.get f))
      if missing.isEmpty then
        match checkProvider s with
        | .error e => (.error e, h7)
        | .ok _ =>
          match checkTimestamp parseDate now s with
          | .error e => (.error e, h7)
          | .ok _ =>
            match validateNumericRanges s with
            | .error e => (.error e, h7)
            | .ok _ => (.ok dst, h7)
      else
        (.error ("Missing required fields: " ++
          String.intercalate ", " (missing.map WField.name)), h7)

/-! ### `NeonWeatherRepository.save` (src/repositories/weather — Neon
backend)

`save` calls `this.validate(data)` — whose return value (the sanitized
copy) is discarded — and then interpolates the fields of the original
`data` into the `INSERT`. The store is the list of inserted rows. -/

/-- `save(data)`: validate, then insert the original `data` values.
Errors are wrapped by `createRepositoryError(error, 'save')`. -/
def neonWeatherSave (parseDate : String → Option ℚ) (now : ℚ)
    (store : List WeatherData) (data : WeatherData) :
    Except String (List WeatherData × WeatherData) :=
  match validateWeatherData parseDate now data with
  | .error e => .error ("Repository save operation failed: " ++ e)
  | .ok _ => .ok (store ++ [data], data)

/-! ### News records and repositories (src/repositories/news)

String-or-absent JS fields are `Option String` (`none` models both
`undefined` and SQL/JS `null`); `none` and `some ""` are falsy. -/

/-- JS truthiness for an optional string. -/
def truthyS : Option String → Bool
  | none => false
  | some s => s != ""

/-- `x || null`. -/
def jsOrNull (v : Option String) : Option String :=
  if truthyS v then v else none

/-- `x || dflt`. -/
def jsOrD (v : Option String) (dflt : String) : Option String :=
  if truthyS v then v else some dflt

/-- `x || ''` read as a plain string. -/
def jsOrEmpty (v : Option String) : String :=
  if truthyS v then v.getD "" else ""

/-- ASCII lower-casing (JS `toLowerCase` on the strings this system
handles). -/
def lowerAscii (s : String) : String := String.mk (s.data.map Char.toLower)

/-- JS `String.prototype.trim` (whitespace from both ends). -/
def jsTrim (s : String) : String :=
  String.mk (((s.data.dropWhile Char.isWhitespace).reverse.dropWhile Char.isWhitespace).reverse)

/-- One pass of JS `split(' ')`. -/
def splitSpaceAux : List Char → List Char → List String
  | [], acc => [String.mk acc.reverse]
  | c :: cs, acc =>
    if c == ' ' then String.mk acc.reverse :: splitSpaceAux cs []
    else splitSpaceAux cs (c :: acc)

/-- JS `split(' ')`. -/
def jsSplitSpace (s : String) : List String := splitSpaceAux s.data []

/-- JS `join(' ')`. -/
def jsJoinSpace : List String → String
  | [] => ""
  | [w] => w
  | w :: ws => w ++ " " ++ jsJoinSpace ws

/-- `/^https?:\/\//.test(s)`. -/
def startsWithHttp (s : String) : Bool :=
  List.isPrefixOf "http://".data s.data || List.isPrefixOf "https://".data s.data

/-- One entry of a Sequelize validation-error list. -/
structure SeqErrItem where
  path : String
  validatorKey : String
deriving DecidableEq, Repr

/-- An unwrapped thrown JS error as the error-handling code inspects it:
`name`, `message`, an optional driver `code` and a Sequelize `errors`
array. -/
structure BaseErr where
  name : String := "Error"
  message : String
  code : Option String := none
  errors : List SeqErrItem := []
deriving DecidableEq, Repr

/-- A thrown JS error that may additionally carry the `originalError`
attached by `createRepositoryError` (the source wraps at most once). -/
structure JsErr where
  name : String := "Error"
  message : String
  code : Option String := none
  errors : List SeqErrItem := []
  original : Option BaseErr := none
deriving DecidableEq, Repr

/-- An unwrapped error seen as a thrown value. -/
def BaseErr.toJsErr (b : BaseErr) : JsErr :=
  { name := b.name, message := b.message, code := b.code, errors := b.errors }

/-- `new Error(msg)`. -/
def plainErr (msg : String) : BaseErr := { message := msg }

/-- `createRepositoryError(error, method)` of
src/repositories/news/neon.js: prefixes the method context and keeps the
original error. -/
def newsNeonRepoErr (e : BaseErr) (method : String) : JsErr :=
  { message := "[NeonNewsRepository." ++ method ++ "] " ++ e.message, original := some e }

/-- `createRepositoryError(error, operation)` of
src/repositories/news/utils.js. -/
def newsUtilsRepoErr (e : BaseErr) (operation : String) : JsErr :=
  { message := "News repository " ++ operation ++ " operation failed: " ++ e.message
    original := some e }

/-- Modelled from the spec: the error the Postgres driver raises when the
`UNIQUE` constraint on `news.url` (declared in the news table schema and
as `unique: true` on the news model) is violated — SQLSTATE `23505`. The
database engine itself is not part of src/. -/
def pgUniqueViolation : BaseErr :=
  { name := "error"
    message := "duplicate key value violates unique constraint \x22news_url_key\x22"
    code := some "23505" }

/-- Modelled from the spec: the `SequelizeUniqueConstraintError` the
Sequelize ORM (an external collaborator) throws on a duplicate `url`,
carrying a validation item with `path: 'url'` and
`validatorKey: 'not_unique'`. -/
def sequelizeUniqueConstraintError : BaseErr :=
  { name := "SequelizeUniqueConstraintError"
    message := "Validation error"
    errors := [⟨"url", "not_unique"⟩] }

/-- The news article data passed to repository writes. -/
structure NewsData where
  title : Option String := none
  description : Option String := none
  content : Option String := none
  url : Option String := none
  imageUrl : Option String := none
  publishedAt : Option String := none
  sourceName : Option String := none
  author : Option String := none
  provider : Option String := none
deriving DecidableEq, Repr

/-- A stored news row. -/
structure NewsRow where
  id : ℕ
  title : Option String := none
  description : Option String := none
  content : Option String := none
  url : Option String := none
  imageUrl : Option String := none
  publishedAt : Option String := none
  sourceName : Option String := none
  author : Option String := none
  provider : Option String := none
  createdAt : String := ""
deriving DecidableEq, Repr

/-- The inline `validate(data)` shared verbatim by `NeonNewsRepository`
and `SequelizeNewsRepository`: required `title`/`content`/`provider`,
http(s) scheme on `url`/`imageUrl` (case-sensitive regex), and a
parseable `publishedAt`. -/
def newsInlineValidate (parseDate : String → Option ℚ) (d : NewsData) :
    Except String Unit :=
  if !truthyS d.title then .error "Missing required field: title"
  else if !truthyS d.content then .error "Missing required field: content"
  else if !truthyS d.provider then .error "Missing required field: provider"
  else if truthyS d.url && !startsWithHttp (d.url.getD "") then
    .error "URL must start with http:// or https://"
  else if truthyS d.imageUrl && !startsWithHttp (d.imageUrl.getD "") then
    .error "Image URL must start with http:// or https://"
  else if truthyS d.publishedAt && (parseDate (d.publishedAt.getD "")).isNone then
    .error "Invalid publishedAt date"
  else .ok ()

/-- `sanitizeString` applied to a possibly-absent field, guarded by the
`if (sanitized.f)` truthiness check. -/
def sanField (v : Option String) : Option String :=
  if truthyS v then v.map sanitizeStr else v

/-- `sanitizeNewsData(data)` (src/repositories/news/utils.js): sanitize
the string fields of a shallow copy and return the copy. -/
def sanitizeNewsData (d : NewsData) : NewsData :=
  { d with
    title := sanField d.title
    description := sanField d.description
    content := sanField d.content
    url := sanField d.url
    imageUrl := sanField d.imageUrl
    sourceName := sanField d.sourceName
    author := sanField d.author
    provider := sanField d.provider }

/-- `validateNewsData(data)` (src/repositories/news/utils.js): sanitize,
validate (http(s) regexes carry the `i` flag here), and return the
sanitized copy. -/
def validateNewsData (parseDate : String → Option ℚ) (d : NewsData) :
    Except String NewsData :=
  let s := sanitizeNewsData d
  if !truthyS s.title then .error "Missing required field: title"
  else if !truthyS s.content then .error "Missing required field: content"
  else if !truthyS s.provider then .error "Missing required field: provider"
  else if truthyS s.url && !startsWithHttp (lowerAscii (s.url.getD "")) then
    .error "URL must start with http:// or https://"
  else if truthyS s.imageUrl && !startsWithHttp (lowerAscii (s.imageUrl.getD "")) then
    .error "Image URL must start with http:// or https://"
  else if truthyS s.publishedAt && (parseDate (s.publishedAt.getD "")).isNone then
    .error "Invalid publishedAt date"
  else .ok s

/-- SQL `COALESCE(new, old)`. -/
def coalesce (new old : Option String) : Option String :=
  match new with
  | some s => some s
  | none => old

/-- The row the Neon `INSERT` of `NeonNewsRepository.create` builds from
`data` (`|| null` / `|| now` defaults as in the source). The serial `id`
is modelled as one past the store size. -/
def neonInsertRow (now : String) (store : List NewsRow) (d : NewsData) : NewsRow :=
  { id := store.length + 1
    title := d.title
    description := jsOrNull d.description
    content := d.content
    url := jsOrNull d.url
    imageUrl := jsOrNull d.imageUrl
    publishedAt := jsOrD d.publishedAt now
    sourceName := jsOrNull d.sourceName
    author := jsOrNull d.author
    provider := jsOrD d.provider "newsapi"
    createdAt := now }

/-- `NeonNewsRepository.create(data)`: validate, insert; the `UNIQUE`
url constraint (modelled from the schema) rejects a duplicate non-null
url with the driver's 23505 error; every failure is wrapped by
`createRepositoryError(error, 'create')`. -/
def neonNewsCreate (parseDate : String → Option ℚ) (now : String)
    (store : List NewsRow) (d : NewsData) : Except JsErr (List NewsRow × NewsRow) :=
  match newsInlineValidate parseDate d with
  | .error msg => .error (newsNeonRepoErr (plainErr msg) "create")
  | .ok _ =>
    let row := neonInsertRow now store d
    if row.url.isSome && store.any (fun r => r.url == row.url) then
      .error (newsNeonRepoErr pgUniqueViolation "create")
    else .ok (store ++ [row], row)

/-- `NeonNewsRepository.update(id, data)`: validate, `UPDATE ... WHERE id
... RETURNING *`; an absent id throws `Article with ID ${id} not found`,
wrapped with the method context. -/
def neonNewsUpdate (parseDate : String → Option ℚ) (store : List NewsRow)
    (id : ℕ) (d : NewsData) : Except JsErr (List NewsRow × NewsRow) :=
  match newsInlineValidate parseDate d with
  | .error msg => .error (newsNeonRepoErr (plainErr msg) "update")
  | .ok _ =>
    match store.find? (fun r => r.id == id) with
    | none =>
      .error (newsNeonRepoErr
        (plainErr ("Article with ID " ++ toString id ++ " not found")) "update")
    | some r =>
      let r' := { r with
        title := coalesce d.title r.title
        description := coalesce d.description r.description
        content := coalesce d.content r.content
        url := coalesce d.url r.url
        imageUrl := coalesce d.imageUrl r.imageUrl
        publishedAt := coalesce d.publishedAt r.publishedAt
        sourceName := coalesce d.sourceName r.sourceName
        author := coalesce d.author r.author
        provider := coalesce d.provider r.provider }
      .ok (store.map (fun x => if x.id == id then r' else x), r')

/-- `NeonNewsRepository.delete(id)`: `DELETE ... RETURNING id`, then
`result.rows.length > 0` — no not-found throw. -/
def neonNewsDelete (store : List NewsRow) (id : ℕ) :
    Except JsErr (List NewsRow × Bool) :=
  .ok (store.filter (fun r => !(r.id == id)), store.any (fun r => r.id == id))

/-- The row `model.create({...data, imageUrl: data.imageUrl || null,
publishedAt: data.publishedAt || new Date()})` stores (Sequelize news
backend); `provider` falls back to the model's `'newsapi'` default. -/
def sequelizeInsertRow (now : String) (store : List NewsRow) (d : NewsData) : NewsRow :=
  { id := store.length + 1
    title := d.title
    description := d.description
    content := d.content
    url := d.url
    imageUrl := jsOrNull d.imageUrl
    publishedAt := jsOrD d.publishedAt now
    sourceName := d.sourceName
    author := d.author
    provider := if d.provider.isSome then d.provider else some "newsapi"
    createdAt := now }

/-- `SequelizeNewsRepository.create(data)` (the variant without error
wrapping, the one whose errors `demonstrateNewsService` inspects):
validate, then `model.create`; a duplicate non-null url raises the ORM's
unique-constraint error unwrapped. -/
def sequelizeNewsCreate (parseDate : String → Option ℚ) (now : String)
    (store : List NewsRow) (d : NewsData) : Except JsErr (List NewsRow × NewsRow) :=
  match newsInlineValidate parseDate d with
  | .error msg => .error (plainErr msg).toJsErr
  | .ok _ =>
    let row := sequelizeInsertRow now store d
    if row.url.isSome && store.any (fun r => r.url == row.url) then
      .error sequelizeUniqueConstraintError.toJsErr
    else .ok (store ++ [row], row)

/-- `SequelizeNewsRepository.delete(id)`: `model.destroy` count `> 0` —
no not-found throw. -/
def sequelizeNewsDelete (store : List NewsRow) (id : ℕ) : List NewsRow × Bool :=
  (store.filter (fun r => !(r.id == id)), store.any (fun r => r.id == id))

/-- `SequelizeNewsRepository.update(id, data)`: validate, `model.update`
with `returning: true`; an absent id throws
`Article with ID ${id} not found` (unwrapped). -/
def sequelizeNewsUpdate (parseDate : String → Option ℚ) (now : String)
    (store : List NewsRow) (id : ℕ) (d : NewsData) :
    Except JsErr (List NewsRow × NewsRow) :=
  match newsInlineValidate parseDate d with
  | .error msg => .error (plainErr msg).toJsErr
  | .ok _ =>
    match store.find? (fun r => r.id == id) with
    | none => .error (plainErr ("Article with ID " ++ toString id ++ " not found")).toJsErr
    | some r =>
      let r' := { r with
        title := coalesce d.title r.title
        description := coalesce d.description r.description
        content := coalesce d.content r.content
        url := coalesce d.url r.url
        imageUrl := coalesce d.imageUrl r.imageUrl
        publishedAt := coalesce d.publishedAt r.publishedAt
        sourceName := coalesce d.sourceName r.sourceName
        author := coalesce d.author r.author
        provider := coalesce d.provider r.provider
        createdAt := now }
      .ok (store.map (fun x => if x.id == id then r' else x), r')

/-- The sanitizing `SequelizeNewsRepository.create` variant built on
`validateNewsData` (src/repositories/news/utils.js): the row stored is
built from the SANITIZED copy. -/
def sequelizeUtilsNewsCreate (parseDate : String → Option ℚ) (now : String)
    (store : List NewsRow) (d : NewsData) : Except JsErr (List NewsRow × NewsRow) :=
  match validateNewsData parseDate d with
  | .error msg => .error (newsUtilsRepoErr (plainErr msg) "create")
  | .ok s =>
    let row := sequelizeInsertRow now store s
    if row.url.isSome && store.any (fun r => r.url == row.url) then
      .error (newsUtilsRepoErr sequelizeUniqueConstraintError "create")
    else .ok (store ++ [row], row)

/-! ### Duplicate classification and the ingestion step -/

/-- The duplicate check of `demonstrateNewsService`
(src/examples/news-example.js): `dbError.name ===
'SequelizeUniqueConstraintError' && dbError.errors?.some(e =>
e.validatorKey === 'not_unique' && e.path === 'url')`. -/
def isDuplicateError (e : JsErr) : Bool :=
  e.name == "SequelizeUniqueConstraintError" &&
    e.errors.any (fun i => i.validatorKey == "not_unique" && i.path == "url")

/-- The duplicate check of the worker's per-article catch
(src/worker.js): `error.originalError && error.originalError.code ===
'23505'`. -/
def isDuplicate23505 (e : JsErr) : Bool :=
  match e.original with
  | some o => o.code == some "23505"
  | none => false

/-- A raw provider article. -/
structure RawArticle where
  title : Option String := none
  description : Option String := none
  content : Option String := none
  url : Option String := none
  imageUrl : Option String := none
  publishedAt : Option String := none
  sourceName : Option String := none
  author : Option String := none
deriving DecidableEq, Repr

/-- The article data the worker's ingestion builds before `create`
(`|| ''` defaults as in the source). -/
def workerArticleData (a : RawArticle) : NewsData :=
  { title := a.title
    description := some (jsOrEmpty a.description)
    content := some (jsOrEmpty a.content)
    url := a.url
    imageUrl := some (jsOrEmpty a.imageUrl)
    publishedAt := a.publishedAt
    sourceName := a.sourceName
    author := some (jsOrEmpty a.author)
    provider := some "newsapi" }

/-- Outcome of one per-article ingestion step of the worker's batch. -/
inductive IngestOutcome where
  | saved (id : ℕ)
  | duplicate
  | failed (msg : String)
deriving DecidableEq, Repr

/-- One iteration of the worker's `articlePromises` map: `create`, catch,
classify 23505 as a skipped duplicate, report any other error — never
rethrow. -/
def processArticle (parseDate : String → Option ℚ) (now : String)
    (store : List NewsRow) (a : RawArticle) : IngestOutcome × List NewsRow :=
  match neonNewsCreate parseDate now store (workerArticleData a) with
  | .ok (s', row) => (.saved row.id, s')
  | .error e =>
    if isDuplicate23505 e then (.duplicate, store)
    else (.failed e.message, store)

/-! ### Pagination (src/utils/pagination.js) -/

/-- The `{ page, limit, offset }` produced by `getPaginationParams`. -/
structure PaginationParams where
  page : ℕ
  limit : ℕ
  offset : ℕ
deriving DecidableEq, Repr

/-- The metadata object of `getPaginationMetadata`. -/
structure PaginationMeta where
  totalItems : ℕ
  totalPages : ℤ
  currentPage : ℕ
  itemsPerPage : ℕ
  hasNextPage : Bool
  hasPreviousPage : Bool
deriving DecidableEq, Repr

/-- `getPaginationMetadata(paginationParams, totalItems)`:
`totalPages = Math.ceil(totalItems / limit)`,
`hasNextPage = page < totalPages`, `hasPreviousPage = page > 1`. -/
def getPaginationMetadata (pp : PaginationParams) (totalItems : ℕ) : PaginationMeta :=
  let totalPages : ℤ := ⌈(totalItems : ℚ) / (pp.limit : ℚ)⌉
  { totalItems := totalItems
    totalPages := totalPages
    currentPage := pp.page
    itemsPerPage := pp.limit
    hasNextPage := decide ((pp.page : ℤ) < totalPages)
    hasPreviousPage := decide (1 < pp.page) }

/-- `getPaginatedData(repository, criteria, options, queryParams)`: the
parallel `findAll`/`count` pair (their outcomes are the repository-call
parameters; `Promise.all` rejects if either rejects), then the metadata. -/
def getPaginatedData {α : Type} (findAllRes : Except JsErr (List α))
    (countRes : Except JsErr ℕ) (pp : PaginationParams) :
    Except JsErr (List α × PaginationMeta) :=
  match findAllRes with
  | .error e => .error e
  | .ok items =>
    match countRes with
    | .error e => .error e
    | .ok c => .ok (items, getPaginationMetadata pp c)

/-! ### Aggregation service (src/services/aggregate/aggregation.service.js)

The query-parameter-to-criteria translation is orthogonal to the
branch-degradation behaviour; the repository calls it feeds are abstracted
into their outcomes, which are the parameters below. A branch's
`pagination: {}` literal is `none`. -/

/-- The trimmed news item `getPaginatedNews` returns. -/
structure NewsView where
  title : String
  description : String
  url : String
  imageUrl : String
  publishedAt : String
  sourceName : String
  author : String
deriving DecidableEq, Repr

/-- `article.title || ''` etc.; `publishedAt` falls back to
`new Date().toISOString()`. -/
def newsItemView (nowIso : String) (r : NewsRow) : NewsView :=
  { title := jsOrEmpty r.title
    description := jsOrEmpty r.description
    url := jsOrEmpty r.url
    imageUrl := jsOrEmpty r.imageUrl
    publishedAt := if truthyS r.publishedAt then r.publishedAt.getD "" else nowIso
    sourceName := jsOrEmpty r.sourceName
    author := jsOrEmpty r.author }

/-- A stored weather row as the read path projects it. -/
structure WeatherRow where
  city : Option String := none
  temperature : Option ℚ := none
  humidity : Option ℚ := none
  timestamp : Option String := none
deriving DecidableEq, Repr

/-- The trimmed weather item `getPaginatedWeather` returns. -/
structure WeatherView where
  city : String
  temperature : ℚ
  humidity : ℚ
  timestamp : String
deriving DecidableEq, Repr

/-- `record.city || ''`, `record.temperature || 0`, `record.humidity ||
0`, `record.timestamp || new Date().toISOString()`. -/
def weatherItemView (nowIso : String) (r : WeatherRow) : WeatherView :=
  { city := jsOrEmpty r.city
    temperature := r.temperature.getD 0
    humidity := r.humidity.getD 0
    timestamp := if truthyS r.timestamp then r.timestamp.getD "" else nowIso }

/-- One branch of the aggregate response: `{ items, pagination }`;
`pagination = none` models the empty-object literal `{}`. -/
structure Branch (α : Type) where
  items : List α
  pagination : Option PaginationMeta
deriving DecidableEq, Repr

/-- `getPaginatedNews(filters, paginationParams)`: paginate, transform;
any failure degrades to `{ items: [], pagination: {} }`. -/
def getPaginatedNews (nowIso : String) (findAllRes : Except JsErr (List NewsRow))
    (countRes : Except JsErr ℕ) (pp : PaginationParams) : Branch NewsView :=
  match getPaginatedData findAllRes countRes pp with
  | .ok (items, meta) => ⟨items.map (newsItemView nowIso), some meta⟩
  | .error _ => ⟨[], none⟩

/-- `getPaginatedWeather(filters, paginationParams)`: paginate,
transform; any failure degrades to `{ items: [], pagination: {} }`. -/
def getPaginatedWeather (nowIso : String) (findAllRes : Except JsErr (List WeatherRow))
    (countRes : Except JsErr ℕ) (pp : PaginationParams) : Branch WeatherView :=
  match getPaginatedData findAllRes countRes pp with
  | .ok (items, meta) => ⟨items.map (weatherItemView nowIso), some meta⟩
  | .error _ => ⟨[], none⟩

/-- The `{ news, weather, timestamp }` object `getAggregatedData`
resolves with. -/
structure AggResponse where
  news : Branch NewsView
  weather : Branch WeatherView
  timestamp : String
deriving DecidableEq, Repr

/-- `getAggregatedData(query)`: awaits both branch helpers in parallel
and assembles the response; the branch helpers catch their own failures,
so the surrounding try/catch never fires for them (`Except` captures the
possibility of a thrown error). -/
def getAggregatedData (nowIso ts : String)
    (newsFindAll : Except JsErr (List NewsRow)) (newsCount : Except JsErr ℕ)
    (weatherFindAll : Except JsErr (List WeatherRow)) (weatherCount : Except JsErr ℕ)
    (pp : PaginationParams) : Except JsErr AggResponse :=
  .ok
    { news := getPaginatedNews nowIso newsFindAll newsCount pp
      weather := getPaginatedWeather nowIso weatherFindAll weatherCount pp
      timestamp := ts }

/-! ### Location normalization
(src/services/weather/base/WeatherTransformer.js) -/

/-- ASCII upper-casing (JS `toUpperCase` on the strings this system
handles). -/
def upperAscii (s : String) : String := String.mk (s.data.map Char.toUpper)

/-- The `specialCases` alias table of `_normalizeCityName`, in source
order. -/
def citySpecialCases : List (String × String) :=
  [("ho chi minh", "Ho Chi Minh"),
   ("ho chi minh city", "Ho Chi Minh "),
   ("hcm", "Ho Chi Minh"),
   ("hanoi", "Hanoi"),
   ("saigon", "Ho Chi Minh City")]

/-- `word.charAt(0).toUpperCase() + word.slice(1).toLowerCase()`. -/
def titleCaseWord (w : String) : String :=
  match w.data with
  | [] => ""
  | c :: rest => String.mk (c.toUpper :: rest.map Char.toLower)

/-- One word of the title-casing map, including the (behaviourally
identical) abbreviation branch of the source. -/
def jsTitleWord (w : String) : String :=
  let baseWord := lowerAscii (String.mk (w.data.filter Char.isAlpha))
  let abbreviations := ["st", "mt", "ft", "dr", "ave", "blvd"]
  if abbreviations.contains baseWord then titleCaseWord w else titleCaseWord w

/-- `_normalizeCityName(city)`. -/
def normalizeCityName (city : String) : String :=
  if city == "" then ""
  else
    let lowerCity := lowerAscii (jsTrim city)
    match citySpecialCases.find? (fun p => p.1 == lowerCity) with
    | some p => p.2
    | none =>
      jsJoinSpace ((jsSplitSpace (lowerAscii city)).map jsTitleWord)

/-- `/^[A-Z]{2}$/i.test(country)`. -/
def isTwoLetterAlpha (s : String) : Bool :=
  match s.data with
  | [c1, c2] => c1.isAlpha && c2.isAlpha
  | _ => false

/-- The `countryMappings` table of `_normalizeCountryCode`, in source
order (the duplicated `viet nam`/`vietnam` keys map to the same value, so
first-match lookup agrees with the JS object literal). -/
def countryMappings : List (String × String) :=
  [("united states", "US"), ("united states of america", "US"),
   ("united kingdom", "GB"), ("great britain", "GB"),
   ("vietnam", "VN"), ("viet nam", "VN"),
   ("japan", "JP"), ("south korea", "KR"), ("russia", "RU"), ("china", "CN"),
   ("germany", "DE"), ("france", "FR"), ("spain", "ES"), ("italy", "IT"),
   ("canada", "CA"), ("australia", "AU"), ("brazil", "BR"), ("india", "IN"),
   ("indonesia", "ID"), ("thailand", "TH"), ("singapore", "SG"),
   ("malaysia", "MY"), ("philippines", "PH"),
   ("america", "US"), ("usa", "US"), ("u.s.", "US"), ("u.s.a.", "US"),
   ("uk", "GB"), ("u.k.", "GB"), ("england", "GB"),
   ("viet nam", "VN"), ("vietnam", "VN")]

/-- `_normalizeCountryCode(country)`. -/
def normalizeCountryCode (country : String) : String :=
  if country == "" then ""
  else if isTwoLetterAlpha country then upperAscii country
  else
    match countryMappings.find? (fun p => p.1 == lowerAscii (jsTrim country)) with
    | some p => p.2
    | none => country

/-! ### NewsAPI transformer
(src/services/news/newsapi/NewsApiTransformer.js)

`RawArticle.content = none` models the provider's explicit `null`
content. -/

/-- The mapped article shape of the transformer's output. -/
structure NewsApiArticleOut where
  title : Option String
  description : Option String
  content : Option String
  url : Option String
  imageUrl : Option String
  publishedAt : Option String
  sourceName : Option String
  author : String
deriving DecidableEq, Repr

/-- The raw NewsAPI response body. -/
structure NewsApiResponse where
  status : Option String
  totalResults : ℕ
  articles : List RawArticle
deriving DecidableEq, Repr

/-- The transformer's output object. -/
structure TransformedNews where
  status : Option String
  total_results : ℕ
  articles : List NewsApiArticleOut
deriving DecidableEq, Repr

/-- The per-article map of `NewsApiTransformer.transform`. -/
def newsApiProj (a : RawArticle) : NewsApiArticleOut :=
  { title := a.title
    description := a.description
    content := a.content
    url := a.url
    imageUrl := a.imageUrl
    publishedAt := a.publishedAt
    sourceName := a.sourceName
    author := jsOrEmpty a.author }

/-- `NewsApiTransformer.transform(data)`: filter out null-content
articles, then map. -/
def newsApiTransform (data : NewsApiResponse) : TransformedNews :=
  { status := data.status
    total_results := data.totalResults
    articles := (data.articles.filter (fun a => a.content != none)).map newsApiProj }

/-! ### AccuWeather pressure conversion
(src/services/weather/providers/accuweather/AccuWeatherTransformer.js) -/

/-- JS `Math.round` (round half toward positive infinity). -/
def jsRound (q : ℚ) : ℤ := ⌊q + 1 / 2⌋

/-- `_inchesToHPa(inches)`: non-numbers give `0`, numbers are multiplied
by `33.8639` and rounded. -/
def inchesToHPa : JsVal → ℤ
  | .num q => jsRound (q * (338639 / 10000 : ℚ))
  | _ => 0

/-! ### Auxiliary characterizations used by the statements -/

/-- A rejected promise / thrown call. -/
def isErrE {ε α : Type} : Except ε α → Bool
  | .error _ => true
  | .ok _ => false

/-- A numeric field value lies within its rule's inclusive bounds. -/
def inRangeB (d : WeatherData) (r : RangeRule) : Bool :=
  match d.get r.field with
  | .num q => decide ((r.min : ℚ) ≤ q) && decide (q ≤ (r.max : ℚ))
  | _ => false

/-- The first range rule (in check order) whose check throws, if any. -/
def firstBadRule (d : WeatherData) : List RangeRule → Option RangeRule
  | [] => none
  | r :: rest =>
    match checkRange d r with
    | .error _ => some r
    | .ok _ => firstBadRule d rest

/-- A fully valid weather record whose numeric fields sit exactly on the
validation boundaries. -/
def wBoundary : WeatherData :=
  { provider := .str "openweathermap"
    city := .str "Hanoi"
    country := .str "VN"
    latitude := .num 21
    longitude := .num 105
    temperature := .num (-100)
    feelsLike := .num 70
    tempMin := .num (-100)
    tempMax := .num 70
    humidity := .num 0
    pressure := .num 800
    windSpeed := .num 0
    windDirection := .num 360
    conditionMain := .str "Clear"
    conditionDescription := .str "clear sky"
    conditionIcon := .str "01"
    timestamp := .num 0 }

/-- The boundary record with the temperature pushed just out of range. -/
def wBadTemp : WeatherData := { wBoundary with temperature := .num (-101) }

/-- A valid weather record whose city contains a quote character, so its
sanitized form differs from the original. -/
def wQuoteCity : WeatherData := { wBoundary with city := .str "O'Brien" }

/-! ## Helper lemmas -/

/-- Mapping the content projection commutes with the null-content
filter. -/
lemma map_content_filter (l : List RawArticle) :
    ((l.filter (fun a => a.content != none)).map newsApiProj).map (fun b => b.content)
      = (l.map (fun a => a.content)).filter (fun c => c != none) := by
  induction l with
  | nil => rfl
  | cons a rest ih =>
    by_cases h : a.content = none
    · simpa [h] using ih
    · simpa [h, newsApiProj] using ih

/-! ## Claim theorems -/

/-- C8: `_inchesToHPa` multiplies a numeric input by `33.8639` and rounds
to the nearest integer (JS `Math.round`); `29.92` inHg converts to
exactly `1013` hPa; every non-numeric input yields `0`. -/
theorem inchesToHPa_spec :
    (∀ q : ℚ, inchesToHPa (.num q) = ⌊q * (338639 / 10000 : ℚ) + 1 / 2⌋)
    ∧ inchesToHPa (.num (2992 / 100)) = 1013
    ∧ (∀ v : JsVal, (∀ q : ℚ, v ≠ .num q) → inchesToHPa v = 0) := by
  refine ⟨fun q => rfl, by norm_num [inchesToHPa, jsRound], ?_⟩
  intro v hv
  cases v with
  | num q => exact absurd rfl (hv q)
  | undef => rfl
  | null => rfl
  | str s => rfl

/-- Witness for `inchesToHPa_spec` at a concrete non-numeric input. -/
theorem inchesToHPa_spec_witness : inchesToHPa (.str "29.92") = 0 :=
  inchesToHPa_spec.2.2 (.str "29.92") (fun _ h => JsVal.noConfusion h)

/-- C7: the transformed NewsAPI article list is exactly the input
articles whose `content` is not null, projected in input order; no
null-content article survives. -/
theorem newsApiTransform_filters_null_content :
    (∀ d : NewsApiResponse,
      (newsApiTransform d).articles
        = (d.articles.filter (fun a => a.content != none)).map newsApiProj)
    ∧ (∀ d : NewsApiResponse, ∀ b ∈ (newsApiTransform d).articles, b.content ≠ none)
    ∧ (∀ d : NewsApiResponse,
      (newsApiTransform d).articles.map (fun b => b.content)
        = (d.articles.map (fun a => a.content)).filter (fun c => c != none)) := by
  refine ⟨fun d => rfl, ?_, ?_⟩
  · intro d b hb
    simp only [newsApiTransform, List.mem_map, List.mem_filter] at hb
    obtain ⟨a, ⟨_, ha⟩, rfl⟩ := hb
    simpa [newsApiProj] using ha
  · intro d
    simpa [newsApiTransform] using map_content_filter d.articles

/-- Witness for `newsApiTransform_filters_null_content` at a concrete
response: the surviving article has non-null content. -/
theorem newsApiTransform_filters_null_content_witness :
    (newsApiProj { title := some "kept", content := some "body" }).content ≠ none :=
  newsApiTransform_filters_null_content.2.1
    ⟨some "ok", 2,
      [{ title := some "dropped", content := none },
       { title := some "kept", content := some "body" }]⟩
    (newsApiProj { title := some "kept", content := some "body" }) (by decide)

/-- C6 counterexample: the alias table maps `saigon` to
`'Ho Chi Minh City'`, not to `'Ho Chi Minh'` as claimed. -/
theorem normalizeCityName_saigon_cex :
    normalizeCityName "saigon" ≠ "Ho Chi Minh" := by decide

/-- C6 (amended): after trimming and lower-casing, `hcm` maps to
`'Ho Chi Minh'` but `saigon` maps to `'Ho Chi Minh City'`; city names
outside the alias table are title-cased word by word; a two-letter
country input is upper-cased, other inputs are looked up in the static
table and mapped inputs are replaced by their ISO alpha-2 code, while
inputs in neither category pass through unchanged. -/
theorem normalizeLocation_spec :
    (∀ city : String, city ≠ "" → lowerAscii (jsTrim city) = "hcm" →
      normalizeCityName city = "Ho Chi Minh")
    ∧ (∀ city : String, city ≠ "" → lowerAscii (jsTrim city) = "saigon" →
      normalizeCityName city = "Ho Chi Minh City")
    ∧ (∀ city : String, city ≠ "" →
      citySpecialCases.find? (fun p => p.1 == lowerAscii (jsTrim city)) = none →
      normalizeCityName city
        = jsJoinSpace ((jsSplitSpace (lowerAscii city)).map jsTitleWord))
    ∧ (∀ country : String, country ≠ "" → isTwoLetterAlpha country = true →
      normalizeCountryCode country = upperAscii country)
    ∧ (∀ country : String, country ≠ "" → isTwoLetterAlpha country = false →
      ∀ p ∈ countryMappings,
        countryMappings.find? (fun q => q.1 == lowerAscii (jsTrim country)) = some p →
        normalizeCountryCode country = p.2)
    ∧ (∀ country : String, country ≠ "" → isTwoLetterAlpha country = false →
      countryMappings.find? (fun q => q.1 == lowerAscii (jsTrim country)) = none →
      normalizeCountryCode country = country) := by
  refine ⟨?_, ?_, ?_, ?_, ?_, ?_⟩
  · intro city h0 hl
    have h0' : (city == "") = false := by simpa using h0
    simp only [normalizeCityName, h0', hl]
    simp [citySpecialCases]
  · intro city h0 hl
    have h0' : (city == "") = false := by simpa using h0
    simp only [normalizeCityName, h0', hl]
    simp [citySpecialCases]
  · intro city h0 hf
    have h0' : (city == "") = false := by simpa using h0
    simp only [normalizeCityName, h0', hf]
    simp
  · intro country h0 h2
    have h0' : (country == "") = false := by simpa using h0
    simp [normalizeCountryCode, h0', h2]
  · intro country h0 h2 p _ hf
    have h0' : (country == "") = false := by simpa using h0
    simp [normalizeCountryCode, h0', h2, hf]
  · intro country h0 h2 hf
    have h0' : (country == "") = false := by simpa using h0
    simp [normalizeCountryCode, h0', h2, hf]

/-- Witness for `normalizeLocation_spec` at concrete inputs: the `HCM`
alias (case-insensitive, trimmed), a two-letter country, a mapped country
name, and an unmapped country. -/
theorem normalizeLocation_spec_witness :
    normalizeCityName " HCM " = "Ho Chi Minh"
    ∧ normalizeCountryCode "us" = "US"
    ∧ normalizeCountryCode "Vietnam" = "VN"
    ∧ normalizeCountryCode "Atlantis" = "Atlantis" :=
  ⟨normalizeLocation_spec.1 " HCM " (by decide) (by decide),
   normalizeLocation_spec.2.2.2.1 "us" (by decide) (by decide),
   normalizeLocation_spec.2.2.2.2.1 "Vietnam" (by decide) (by decide)
     ("vietnam", "VN") (by decide) (by decide),
   normalizeLocation_spec.2.2.2.2.2 "Atlantis" (by decide) (by decide) (by decide)⟩

/-- The ceiling of a natural division over `ℚ` agrees with the rounded-up
natural division. -/
lemma ceil_natCast_div (t l : ℕ) (hl : 1 ≤ l) :
    ⌈(t : ℚ) / (l : ℚ)⌉ = (((t + l - 1) / l : ℕ) : ℤ) := by
  have hl0 : (0 : ℚ) < (l : ℚ) := by exact_mod_cast hl
  have hdm := Nat.div_add_mod (t + l - 1) l
  have hm : (t + l - 1) % l < l := Nat.mod_lt _ (by omega)
  set n := (t + l - 1) / l with hn
  set r := (t + l - 1) % l with hr
  have hcast : ((l * n : ℕ) : ℤ) + (r : ℤ) = (t : ℤ) + (l : ℤ) - 1 := by omega
  rw [Int.ceil_eq_iff]
  constructor
  · rw [lt_div_iff₀ hl0]
    have hexp : ((n : ℤ) - 1) * (l : ℤ) = ((l * n : ℕ) : ℤ) - (l : ℤ) := by
      push_cast; ring
    have hr0 : (0 : ℤ) ≤ (r : ℤ) := Int.natCast_nonneg r
    have hz : ((n : ℤ) - 1) * (l : ℤ) < (t : ℤ) := by linarith
    exact_mod_cast hz
  · rw [div_le_iff₀ hl0]
    have hexp : (n : ℤ) * (l : ℤ) = ((l * n : ℕ) : ℤ) := by push_cast; ring
    have hrl : (r : ℤ) < (l : ℤ) := by exact_mod_cast hm
    have hz : (t : ℤ) ≤ (n : ℤ) * (l : ℤ) := by linarith
    exact_mod_cast hz

/-- C3: for any `totalItems` and `limit ≥ 1`, `totalPages` is the ceiling
of `totalItems / limit`, `hasNextPage` holds exactly when
`currentPage < totalPages`, `hasPreviousPage` exactly when
`currentPage > 1`; in particular `totalItems = 95`, `limit = 20` gives
`totalPages = 5` and `hasNextPage ↔ currentPage < 5`. -/
theorem getPaginationMetadata_spec :
    (∀ (pp : PaginationParams) (totalItems : ℕ), 1 ≤ pp.limit →
      (getPaginationMetadata pp totalItems).totalPages
          = (((totalItems + pp.limit - 1) / pp.limit : ℕ) : ℤ)
        ∧ ((getPaginationMetadata pp totalItems).hasNextPage = true
            ↔ (pp.page : ℤ) < (getPaginationMetadata pp totalItems).totalPages)
        ∧ ((getPaginationMetadata pp totalItems).hasPreviousPage = true ↔ 1 < pp.page))
    ∧ (∀ page offset : ℕ,
        (getPaginationMetadata ⟨page, 20, offset⟩ 95).totalPages = 5
        ∧ ((getPaginationMetadata ⟨page, 20, offset⟩ 95).hasNextPage = true
            ↔ page < 5)) := by
  have h95 : ⌈((95 : ℕ) : ℚ) / ((20 : ℕ) : ℚ)⌉ = (5 : ℤ) := by
    rw [ceil_natCast_div 95 20 (by norm_num)]
    norm_num
  constructor
  · intro pp t hl
    refine ⟨?_, ?_, ?_⟩
    · simpa [getPaginationMetadata] using ceil_natCast_div t pp.limit hl
    · simp [getPaginationMetadata]
    · simp [getPaginationMetadata]
  · intro page offset
    constructor
    · simp only [getPaginationMetadata]
      rw [h95]
    · simp only [getPaginationMetadata, h95, decide_eq_true_eq]
      exact_mod_cast Iff.rfl

/-- Witness for `getPaginationMetadata_spec` at `page = 4`, `limit = 20`,
`totalItems = 95`. -/
theorem getPaginationMetadata_spec_witness :
    (getPaginationMetadata ⟨4, 20, 0⟩ 95).totalPages = (((95 + 20 - 1) / 20 : ℕ) : ℤ)
    ∧ ((getPaginationMetadata ⟨4, 20, 0⟩ 95).hasPreviousPage = true ↔ 1 < 4) :=
  ⟨((getPaginationMetadata_spec.1 ⟨4, 20, 0⟩ 95 (by norm_num)).1),
   ((getPaginationMetadata_spec.1 ⟨4, 20, 0⟩ 95 (by norm_num)).2.2)⟩

/-- C2: `getAggregatedData` always resolves with both branch results and
never rejects; a branch whose `findAll` or `count` call rejects degrades
to `{ items: [], pagination: {} }` while the other branch's result is
returned untouched. -/
theorem getAggregatedData_partial_failure :
    ∀ (nowIso ts : String) (nf : Except JsErr (List NewsRow)) (nc : Except JsErr ℕ)
      (wf : Except JsErr (List WeatherRow)) (wc : Except JsErr ℕ) (pp : PaginationParams),
      getAggregatedData nowIso ts nf nc wf wc pp
          = .ok { news := getPaginatedNews nowIso nf nc pp
                  weather := getPaginatedWeather nowIso wf wc pp
                  timestamp := ts }
        ∧ ((isErrE nf = true ∨ isErrE nc = true) →
            getPaginatedNews nowIso nf nc pp = ⟨[], none⟩)
        ∧ ((isErrE wf = true ∨ isErrE wc = true) →
            getPaginatedWeather nowIso wf wc pp = ⟨[], none⟩) := by
  intro nowIso ts nf nc wf wc pp
  refine ⟨rfl, ?_, ?_⟩
  · rintro (h | h)
    · cases nf with
      | error e => rfl
      | ok v => simp [isErrE] at h
    · cases nc with
      | error e => cases nf with
        | error e' => rfl
        | ok v => rfl
      | ok v => simp [isErrE] at h
  · rintro (h | h)
    · cases wf with
      | error e => rfl
      | ok v => simp [isErrE] at h
    · cases wc with
      | error e => cases wf with
        | error e' => rfl
        | ok v => rfl
      | ok v => simp [isErrE] at h

/-- Witness for `getAggregatedData_partial_failure`: a rejected news
`findAll` degrades the news branch to empty items and empty pagination. -/
theorem getAggregatedData_partial_failure_witness :
    getPaginatedNews "2024-01-01T00:00:00Z"
      (.error { message := "connection refused" }) (.ok 7) ⟨1, 10, 0⟩ = ⟨[], none⟩ :=
  (getAggregatedData_partial_failure "2024-01-01T00:00:00Z" "ts"
    (.error { message := "connection refused" }) (.ok 7)
    (.ok []) (.ok 0) ⟨1, 10, 0⟩).2.1 (Or.inl rfl)

/-- C9: for an id absent from the store, `delete` returns `false` without
throwing, in both the Neon and the Sequelize news backend, while
`update` with valid data throws the `Article with ID ... not found`
error. -/
theorem newsDelete_absent_id_returns_false :
    ∀ (store : List NewsRow) (id : ℕ), (∀ r ∈ store, r.id ≠ id) →
      neonNewsDelete store id = .ok (store, false)
      ∧ sequelizeNewsDelete store id = (store, false)
      ∧ (∀ (parseDate : String → Option ℚ) (d : NewsData),
          newsInlineValidate parseDate d = .ok () →
          neonNewsUpdate parseDate store id d
              = .error (newsNeonRepoErr
                  (plainErr ("Article with ID " ++ toString id ++ " not found")) "update")
            ∧ ∀ now : String,
              sequelizeNewsUpdate parseDate now store id d
                = .error (plainErr ("Article with ID " ++ toString id ++ " not found")).toJsErr) := by
  intro store id habs
  have hfilter : store.filter (fun r => !(r.id == id)) = store := by
    apply List.filter_eq_self.mpr
    intro r hr
    simpa using habs r hr
  have hany : store.any (fun r => r.id == id) = false := by
    rw [List.any_eq_false]
    intro r hr
    simpa using habs r hr
  have hfind : store.find? (fun r => r.id == id) = none := by
    rw [List.find?_eq_none]
    intro r hr
    simpa using habs r hr
  refine ⟨?_, ?_, ?_⟩
  · simp [neonNewsDelete, hfilter, hany]
  · simp [sequelizeNewsDelete, hfilter, hany]
  · intro parseDate d hv
    constructor
    · simp [neonNewsUpdate, hv, hfind]
    · intro now
      simp [sequelizeNewsUpdate, hv, hfind]

/-- Witness for `newsDelete_absent_id_returns_false` on a one-row store
and a missing id. -/
theorem newsDelete_absent_id_returns_false_witness :
    neonNewsDelete [{ id := 1, title := some "t" }] 2 = .ok ([{ id := 1, title := some "t" }], false)
    ∧ sequelizeNewsDelete [{ id := 1, title := some "t" }] 2 = ([{ id := 1, title := some "t" }], false)
    ∧ neonNewsUpdate (fun _ => some 0) [{ id := 1, title := some "t" }] 2
        { title := some "t", content := some "c", provider := some "newsapi" }
      = .error (newsNeonRepoErr (plainErr "Article with ID 2 not found") "update") := by
  have h := newsDelete_absent_id_returns_false [{ id := 1, title := some "t" }] 2 (by decide)
  exact ⟨h.1, h.2.1,
    (h.2.2 (fun _ => some 0) { title := some "t", content := some "c", provider := some "newsapi" }
      (by rfl)).1⟩

/-- C1: with the `UNIQUE(url)` constraint, ingesting an article twice
stores exactly one row with that url; the second attempt fails with the
unique-violation error, which both ingestion-path classifiers (the
worker's `23505` code check and the example's
`SequelizeUniqueConstraintError` shape check) recognize as a duplicate —
and classify differently from a validation failure — so the worker's
per-article step yields a skipped-duplicate outcome instead of
propagating an error. -/
theorem news_duplicate_url_create_skips :
    ∀ (parseDate : String → Option ℚ) (now : String) (store : List NewsRow)
      (a : RawArticle) (u : String),
      a.url = some u → u ≠ "" →
      newsInlineValidate parseDate (workerArticleData a) = .ok () →
      (∀ r ∈ store, r.url ≠ some u) →
      ∃ row : NewsRow,
        processArticle parseDate now store a = (.saved row.id, store ++ [row])
        ∧ row.url = some u
        ∧ ((store ++ [row]).filter (fun r => r.url == some u)).length = 1
        ∧ processArticle parseDate now (store ++ [row]) a = (.duplicate, store ++ [row])
        ∧ neonNewsCreate parseDate now (store ++ [row]) (workerArticleData a)
            = .error (newsNeonRepoErr pgUniqueViolation "create")
        ∧ isDuplicate23505 (newsNeonRepoErr pgUniqueViolation "create") = true
        ∧ (∀ (d : NewsData) (msg : String) (s' : List NewsRow),
            newsInlineValidate parseDate d = .error msg →
            neonNewsCreate parseDate now s' d
                = .error (newsNeonRepoErr (plainErr msg) "create")
              ∧ isDuplicate23505 (newsNeonRepoErr (plainErr msg) "create") = false)
        ∧ (∃ srow : NewsRow,
            sequelizeNewsCreate parseDate now store (workerArticleData a)
                = .ok (store ++ [srow], srow)
            ∧ sequelizeNewsCreate parseDate now (store ++ [srow]) (workerArticleData a)
                = .error sequelizeUniqueConstraintError.toJsErr
            ∧ isDuplicateError sequelizeUniqueConstraintError.toJsErr = true
            ∧ ∀ msg : String, isDuplicateError (plainErr msg).toJsErr = false) := by
  intro parseDate now store a u hu hne hv habs
  have hurl : jsOrNull (workerArticleData a).url = some u := by
    simp [workerArticleData, jsOrNull, truthyS, hu, hne]
  have hanyfree : ∀ s : List NewsRow, (∀ r ∈ s, r.url ≠ some u) →
      s.any (fun r => r.url == some u) = false := by
    intro s hs
    rw [List.any_eq_false]
    intro r hr
    simpa using hs r hr
  have hrow : (neonInsertRow now store (workerArticleData a)).url = some u := by
    simpa [neonInsertRow] using hurl
  set row := neonInsertRow now store (workerArticleData a) with hrowdef
  have hstorefree : store.any (fun r => r.url == some u) = false :=
    hanyfree store habs
  have hc1 : neonNewsCreate parseDate now store (workerArticleData a)
      = .ok (store ++ [row], row) := by
    simp only [neonNewsCreate, hv, ← hrowdef]
    simp [hrow, hstorefree]
  have hrow2 : (neonInsertRow now (store ++ [row]) (workerArticleData a)).url = some u := by
    simpa [neonInsertRow] using hurl
  have hany2 : (store ++ [row]).any (fun r => r.url == some u) = true := by
    simp [List.any_append, hrow]
  have hc2 : neonNewsCreate parseDate now (store ++ [row]) (workerArticleData a)
      = .error (newsNeonRepoErr pgUniqueViolation "create") := by
    simp only [neonNewsCreate, hv]
    simp [hrow2, hany2, hrow]
  have hdup : isDuplicate23505 (newsNeonRepoErr pgUniqueViolation "create") = true := rfl
  refine ⟨row, ?_, hrow, ?_, ?_, hc2, hdup, ?_, ?_⟩
  · simp [processArticle, hc1]
  · rw [List.filter_append]
    have h1 : store.filter (fun r => r.url == some u) = [] := by
      rw [List.filter_eq_nil_iff]
      intro r hr
      simpa using habs r hr
    simp [h1, hrow]
  · simp [processArticle, hc2, hdup]
  · intro d msg s' hvd
    refine ⟨?_, rfl⟩
    simp [neonNewsCreate, hvd]
  · have hsurl : (sequelizeInsertRow now store (workerArticleData a)).url = some u := by
      simp [sequelizeInsertRow, workerArticleData, hu]
    set srow := sequelizeInsertRow now store (workerArticleData a) with hsrowdef
    have hsc1 : sequelizeNewsCreate parseDate now store (workerArticleData a)
        = .ok (store ++ [srow], srow) := by
      simp only [sequelizeNewsCreate, hv, ← hsrowdef]
      simp [hsurl, hstorefree]
    have hsurl2 : (sequelizeInsertRow now (store ++ [srow]) (workerArticleData a)).url
        = some u := by
      simp [sequelizeInsertRow, workerArticleData, hu]
    have hsany2 : (store ++ [srow]).any (fun r => r.url == some u) = true := by
      simp [List.any_append, hsurl]
    have hsc2 : sequelizeNewsCreate parseDate now (store ++ [srow]) (workerArticleData a)
        = .error sequelizeUniqueConstraintError.toJsErr := by
      simp only [sequelizeNewsCreate, hv]
      simp [hsurl2, hsany2, hsurl]
    exact ⟨srow, hsc1, hsc2, rfl, fun msg => rfl⟩

/-- Witness for `news_duplicate_url_create_skips` at a concrete article
and an empty store. -/
theorem news_duplicate_url_create_skips_witness :
    ∃ row : NewsRow,
      processArticle (fun _ => some 0) "now" []
          { title := some "T", content := some "C", url := some "http://a.example/x" }
        = (.saved row.id, ([] : List NewsRow) ++ [row])
      ∧ row.url = some "http://a.example/x"
      ∧ ((([] : List NewsRow) ++ [row]).filter
          (fun r => r.url == some "http://a.example/x")).length = 1
      ∧ processArticle (fun _ => some 0) "now" (([] : List NewsRow) ++ [row])
          { title := some "T", content := some "C", url := some "http://a.example/x" }
        = (.duplicate, ([] : List NewsRow) ++ [row]) := by
  obtain ⟨row, h1, h2, h3, h4, _⟩ :=
    news_duplicate_url_create_skips (fun _ => some 0) "now" []
      { title := some "T", content := some "C", url := some "http://a.example/x" }
      "http://a.example/x" rfl (by decide) (by rfl) (by intro r hr; cases hr)
  exact ⟨row, h1, h2, h3, h4⟩

/-- `sanProvider` leaves every range-rule field unchanged. -/
lemma sanProvider_get (x : WeatherData) (r : RangeRule) (hr : r ∈ rangeValidations) :
    (sanProvider x).get r.field = x.get r.field := by
  unfold sanProvider
  split
  · fin_cases hr <;> rfl
  · rfl

/-- `sanCity` leaves every range-rule field unchanged. -/
lemma sanCity_get (x : WeatherData) (r : RangeRule) (hr : r ∈ rangeValidations) :
    (sanCity x).get r.field = x.get r.field := by
  unfold sanCity
  split
  · fin_cases hr <;> rfl
  · rfl

/-- `sanCountry` leaves every range-rule field unchanged. -/
lemma sanCountry_get (x : WeatherData) (r : RangeRule) (hr : r ∈ rangeValidations) :
    (sanCountry x).get r.field = x.get r.field := by
  unfold sanCountry
  split
  · fin_cases hr <;> rfl
  · rfl

/-- `sanConditionMain` leaves every range-rule field unchanged. -/
lemma sanConditionMain_get (x : WeatherData) (r : RangeRule) (hr : r ∈ rangeValidations) :
    (sanConditionMain x).get r.field = x.get r.field := by
  unfold sanConditionMain
  split
  · fin_cases hr <;> rfl
  · rfl

/-- `sanConditionDescription` leaves every range-rule field unchanged. -/
lemma sanConditionDescription_get (x : WeatherData) (r : RangeRule)
    (hr : r ∈ rangeValidations) :
    (sanConditionDescription x).get r.field = x.get r.field := by
  unfold sanConditionDescription
  split
  · fin_cases hr <;> rfl
  · rfl

/-- `sanConditionIcon` leaves every range-rule field unchanged. -/
lemma sanConditionIcon_get (x : WeatherData) (r : RangeRule) (hr : r ∈ rangeValidations) :
    (sanConditionIcon x).get r.field = x.get r.field := by
  unfold sanConditionIcon
  split
  · fin_cases hr <;> rfl
  · rfl

/-- Sanitization touches only the six string fields, so every range-rule
field is preserved. -/
lemma sanitize_preserves_range_fields (d : WeatherData) :
    ∀ r ∈ rangeValidations, (sanitizeWeatherFields d).get r.field = d.get r.field := by
  intro r hr
  unfold sanitizeWeatherFields
  rw [sanConditionIcon_get _ r hr, sanConditionDescription_get _ r hr,
    sanConditionMain_get _ r hr, sanCountry_get _ r hr, sanCity_get _ r hr,
    sanProvider_get _ r hr]

/-- Pointwise-equal range checks give equal loop results. -/
lemma runRangeChecks_congr (d1 d2 : WeatherData) (l : List RangeRule)
    (hp : ∀ r ∈ l, d1.get r.field = d2.get r.field) :
    runRangeChecks d1 l = runRangeChecks d2 l := by
  induction l with
  | nil => rfl
  | cons r rest ih =>
    have hc : checkRange d1 r = checkRange d2 r := by
      unfold checkRange
      rw [hp r (List.mem_cons_self r rest)]
    simp only [runRangeChecks, hc]
    cases checkRange d2 r with
    | ok _ => exact ih (fun r' hr' => hp r' (List.mem_cons_of_mem r hr'))
    | error e => rfl

/-- Pointwise-equal range checks give the same first offending rule. -/
lemma firstBadRule_congr (d1 d2 : WeatherData) (l : List RangeRule)
    (hp : ∀ r ∈ l, d1.get r.field = d2.get r.field) :
    firstBadRule d1 l = firstBadRule d2 l := by
  induction l with
  | nil => rfl
  | cons r rest ih =>
    have hc : checkRange d1 r = checkRange d2 r := by
      unfold checkRange
      rw [hp r (List.mem_cons_self r rest)]
    simp only [firstBadRule, hc]
    cases checkRange d2 r with
    | ok _ => exact ih (fun r' hr' => hp r' (List.mem_cons_of_mem r hr'))
    | error e => rfl

/-- The loop succeeds exactly when every rule's check succeeds. -/
lemma runRangeChecks_ok_iff (d : WeatherData) (l : List RangeRule) :
    runRangeChecks d l = .ok () ↔ ∀ r ∈ l, checkRange d r = .ok () := by
  induction l with
  | nil => simp [runRangeChecks]
  | cons r rest ih =>
    cases hc : checkRange d r with
    | ok u =>
      cases u
      simp [runRangeChecks, hc, ih]
    | error e =>
      simp only [runRangeChecks, hc]
      constructor
      · intro h; exact Except.noConfusion h
      · intro h
        have hr := h r (List.mem_cons_self r rest)
        rw [hc] at hr
        exact Except.noConfusion hr

/-- When some rule fails, the loop throws the first offender's message. -/
lemma runRangeChecks_firstBad (d : WeatherData) (l : List RangeRule) :
    ∀ r, firstBadRule d l = some r →
      ∃ e, runRangeChecks d l = .error e ∧ checkRange d r = .error e := by
  induction l with
  | nil => intro r h; cases h
  | cons r0 rest ih =>
    intro r h
    cases hc : checkRange d r0 with
    | ok u =>
      cases u
      simp only [firstBadRule, hc] at h
      obtain ⟨e, he1, he2⟩ := ih r h
      exact ⟨e, by simp [runRangeChecks, hc, he1], he2⟩
    | error e =>
      simp only [firstBadRule, hc] at h
      cases h
      exact ⟨e, by simp [runRangeChecks, hc], hc⟩

/-- A present, non-null field passes its range check exactly when it is a
number within the inclusive bounds. -/
lemma checkRange_ok_iff_inRange (d : WeatherData) (r : RangeRule)
    (h1 : d.get r.field ≠ .undef) (h2 : d.get r.field ≠ .null) :
    checkRange d r = .ok () ↔ inRangeB d r = true := by
  unfold checkRange inRangeB
  cases hv : d.get r.field with
  | undef => exact absurd hv h1
  | null => exact absurd hv h2
  | str s => simp
  | num q =>
    by_cases hmin : q < (r.min : ℚ)
    · simp [hmin, not_le.mpr hmin]
    · by_cases hmax : q > (r.max : ℚ)
      · simp [hmin, hmax, not_le.mpr hmax]
      · simp [hmin, hmax, not_lt.mp hmin, not_lt.mp hmax]

/-- A failing range check throws one of the three messages naming the
rule's field. -/
lemma checkRange_error_names_field (d : WeatherData) (r : RangeRule) (e : String)
    (h : checkRange d r = .error e) :
    e = "Invalid " ++ r.field.name ++ ": minimum value is " ++ toString r.min
    ∨ e = "Invalid " ++ r.field.name ++ ": maximum value is " ++ toString r.max
    ∨ e = "Invalid " ++ r.field.name ++ ": must be a number" := by
  unfold checkRange at h
  split at h
  · exact Except.noConfusion h
  · exact Except.noConfusion h
  · split_ifs at h with hmin hmax
    · cases h; left; rfl
    · cases h; right; left; rfl
  · cases h; right; right; rfl

/-- Every range-rule field is also a required field. -/
lemma rangeField_mem_required : ∀ r ∈ rangeValidations, r.field ∈ requiredFields := by
  decide

/-- C4: for a record that passes the required-field, provider and
timestamp validations and whose range fields are numbers,
`validateWeatherData` succeeds exactly when every numeric field lies
within its inclusive bounds (so exact boundary values pass), and when a
range field is out of bounds the thrown message names the first
offending field. -/
theorem validateWeatherData_range_spec :
    ∀ (parseDate : String → Option ℚ) (now : ℚ) (d : WeatherData),
      (requiredFields.filter
        (fun f => isMissing ((sanitizeWeatherFields d).get f))).isEmpty = true →
      checkProvider (sanitizeWeatherFields d) = .ok () →
      checkTimestamp parseDate now (sanitizeWeatherFields d) = .ok () →
      ((validateWeatherData parseDate now d = .ok (sanitizeWeatherFields d))
          ↔ ∀ r ∈ rangeValidations, inRangeB d r = true)
      ∧ (∀ r, firstBadRule d rangeValidations = some r →
          ∃ e, validateWeatherData parseDate now d = .error e
            ∧ (e = "Invalid " ++ r.field.name ++ ": minimum value is " ++ toString r.min
              ∨ e = "Invalid " ++ r.field.name ++ ": maximum value is " ++ toString r.max
              ∨ e = "Invalid " ++ r.field.name ++ ": must be a number")) := by
  intro parseDate now d hreq hprov hts
  have hsan := sanitize_preserves_range_fields d
  have hred : validateWeatherData parseDate now d
      = match validateNumericRanges (sanitizeWeatherFields d) with
        | .error e => .error e
        | .ok _ => .ok (sanitizeWeatherFields d) := by
    unfold validateWeatherData
    simp only [hreq, if_true, hprov, hts]
  have hrun : validateNumericRanges (sanitizeWeatherFields d)
      = runRangeChecks d rangeValidations := by
    unfold validateNumericRanges
    exact runRangeChecks_congr _ _ _ hsan
  have hnotabs : ∀ r ∈ rangeValidations,
      d.get r.field ≠ .undef ∧ d.get r.field ≠ .null := by
    intro r hr
    have hfm := rangeField_mem_required r hr
    have hnil : requiredFields.filter
        (fun f => isMissing ((sanitizeWeatherFields d).get f)) = [] :=
      List.isEmpty_iff.mp hreq
    have hmiss : isMissing ((sanitizeWeatherFields d).get r.field) = false := by
      by_contra hc
      have : r.field ∈ requiredFields.filter
          (fun f => isMissing ((sanitizeWeatherFields d).get f)) := by
        rw [List.mem_filter]
        exact ⟨hfm, by simpa using hc⟩
      rw [hnil] at this
      cases this
    rw [hsan r hr] at hmiss
    cases hv : d.get r.field <;> rw [hv] at hmiss <;> simp [isMissing] at hmiss <;>
      exact ⟨by simp [hv], by simp [hv]⟩
  constructor
  · constructor
    · intro hok r hr
      have hchecks : runRangeChecks d rangeValidations = .ok () := by
        rw [hred, hrun] at hok
        cases hc : runRangeChecks d rangeValidations with
        | ok u => cases u; rfl
        | error e => rw [hc] at hok; exact Except.noConfusion hok
      have := (runRangeChecks_ok_iff d rangeValidations).mp hchecks r hr
      exact (checkRange_ok_iff_inRange d r (hnotabs r hr).1 (hnotabs r hr).2).mp this
    · intro hin
      rw [hred, hrun]
      have hchecks : runRangeChecks d rangeValidations = .ok () :=
        (runRangeChecks_ok_iff d rangeValidations).mpr (fun r hr =>
          (checkRange_ok_iff_inRange d r (hnotabs r hr).1 (hnotabs r hr).2).mpr (hin r hr))
      rw [hchecks]
  · intro r hfirst
    obtain ⟨e, he1, he2⟩ := runRangeChecks_firstBad d rangeValidations r hfirst
    refine ⟨e, ?_, checkRange_error_names_field d r e he2⟩
    rw [hred, hrun, he1]

/-- Witness for `validateWeatherData_range_spec`: the all-boundary record
passes validation, and lowering the temperature to `-101` makes it fail
with the message naming `temperature`. -/
theorem validateWeatherData_range_spec_witness :
    validateWeatherData (fun _ => some 0) 0 wBoundary
        = .ok (sanitizeWeatherFields wBoundary)
    ∧ ∃ e, validateWeatherData (fun _ => some 0) 0 wBadTemp = .error e
        ∧ (e = "Invalid temperature: minimum value is -100"
          ∨ e = "Invalid temperature: maximum value is 70"
          ∨ e = "Invalid temperature: must be a number") := by
  have hsW : sanitizeWeatherFields wBoundary = wBoundary := by decide
  have hsB : sanitizeWeatherFields wBadTemp = wBadTemp := by decide
  have htsW : checkTimestamp (fun _ => some 0) 0 (sanitizeWeatherFields wBoundary)
      = .ok () := by
    rw [hsW]
    norm_num [checkTimestamp, wBoundary, jsDateMillis]
  have htsB : checkTimestamp (fun _ => some 0) 0 (sanitizeWeatherFields wBadTemp)
      = .ok () := by
    rw [hsB]
    norm_num [checkTimestamp, wBadTemp, wBoundary, jsDateMillis]
  constructor
  · exact (validateWeatherData_range_spec (fun _ => some 0) 0 wBoundary
      (by decide) (by decide) htsW).1.mpr (by decide)
  · exact (validateWeatherData_range_spec (fun _ => some 0) 0 wBadTemp
      (by decide) (by decide) htsB).2 ⟨.temperature, -100, 70⟩ (by decide)

/-- Writing then reading the same address. -/
lemma writeH_same (h : Heap) (a : ℕ) (d : WeatherData) : writeH h a d a = some d := by
  simp [writeH]

/-- An in-place field update of a just-written object rewrites that
object. -/
lemma writeField_write (h : Heap) (a : ℕ) (x : WeatherData)
    (f : WeatherData → WeatherData) :
    writeField (writeH h a x) a f = writeH h a (f x) := by
  unfold writeField
  rw [writeH_same]
  funext b
  by_cases hb : b = a
  · subst hb; simp [writeH]
  · simp [writeH, hb]

/-- C10: `validateWeatherData` never mutates its argument object: every
write lands on the freshly spread copy, so after the call (whether it
returns or throws) the caller's object is unchanged, and on success the
returned reference is the sanitized copy. -/
theorem validateWeatherData_no_mutation :
    ∀ (parseDate : String → Option ℚ) (now : ℚ) (h : Heap) (src dst : ℕ)
      (d : WeatherData), h src = some d → src ≠ dst →
      (validateWeatherDataHeap parseDate now h src dst).2 src = some d
      ∧ (∀ res, (validateWeatherDataHeap parseDate now h src dst).1 = .ok res →
          res = dst
          ∧ (validateWeatherDataHeap parseDate now h src dst).2 dst
              = some (sanitizeWeatherFields d)) := by
  intro parseDate now h src dst d hsrc hne
  have hchain :
      writeField (writeField (writeField (writeField (writeField (writeField
        (writeH h dst d) dst sanProvider) dst sanCity) dst sanCountry)
        dst sanConditionMain) dst sanConditionDescription) dst sanConditionIcon
      = writeH h dst (sanitizeWeatherFields d) := by
    rw [writeField_write, writeField_write, writeField_write, writeField_write,
      writeField_write, writeField_write]
    rfl
  have hform : validateWeatherDataHeap parseDate now h src dst
      = (let s := sanitizeWeatherFields d
         let h7 := writeH h dst s
         let missing := requiredFields.filter (fun f => isMissing (s.get f))
         if missing.isEmpty then
           match checkProvider s with
           | .error e => (.error e, h7)
           | .ok _ =>
             match checkTimestamp parseDate now s with
             | .error e => (.error e, h7)
             | .ok _ =>
               match validateNumericRanges s with
               | .error e => (.error e, h7)
               | .ok _ => (.ok dst, h7)
         else
           (.error ("Missing required fields: " ++
             String.intercalate ", " (missing.map WField.name)), h7)) := by
    simp only [validateWeatherDataHeap, hsrc, hchain, writeH_same]
  have hsnd : (validateWeatherDataHeap parseDate now h src dst).2
      = writeH h dst (sanitizeWeatherFields d) := by
    rw [hform]
    dsimp only
    split
    · split
      · rfl
      · split
        · rfl
        · split <;> rfl
    · rfl
  constructor
  · rw [hsnd]
    simp only [writeH]
    rw [if_neg hne]
    exact hsrc
  · intro res hres
    have hfst : (validateWeatherDataHeap parseDate now h src dst).1 = .ok res := hres
    rw [hform] at hfst
    dsimp only at hfst
    split at hfst
    · split at hfst
      · exact Except.noConfusion hfst
      · split at hfst
        · exact Except.noConfusion hfst
        · split at hfst
          · exact Except.noConfusion hfst
          · injection hfst with hdst
            refine ⟨hdst.symm, ?_⟩
            rw [hsnd, writeH_same]
    · exact Except.noConfusion hfst

/-- Witness for `validateWeatherData_no_mutation`: a two-cell heap whose
source object is unchanged by a run of the validator. -/
theorem validateWeatherData_no_mutation_witness :
    (validateWeatherDataHeap (fun _ => some 0) 0
      (fun n => if n = 0 then some wBoundary else none) 0 1).2 0 = some wBoundary :=
  (validateWeatherData_no_mutation (fun _ => some 0) 0
    (fun n => if n = 0 then some wBoundary else none) 0 1 wBoundary rfl
    (by decide)).1

/-- A successful `validateWeatherData` returns exactly the sanitized
shallow copy. -/
lemma validateWeatherData_ok_eq (parseDate : String → Option ℚ) (now : ℚ)
    (d s : WeatherData) (h : validateWeatherData parseDate now d = .ok s) :
    s = sanitizeWeatherFields d := by
  unfold validateWeatherData at h
  dsimp only at h
  split at h
  · split at h
    · exact Except.noConfusion h
    · split at h
      · exact Except.noConfusion h
      · split at h
        · exact Except.noConfusion h
        · injection h with h'
          exact h'.symm
  · exact Except.noConfusion h

/-- A successful `validateNewsData` returns exactly the sanitized
shallow copy. -/
lemma validateNewsData_ok_eq (parseDate : String → Option ℚ) (d s : NewsData)
    (h : validateNewsData parseDate d = .ok s) : s = sanitizeNewsData d := by
  unfold validateNewsData at h
  dsimp only at h
  split_ifs at h
  all_goals first
    | exact Except.noConfusion h
    | (injection h with h'; exact h'.symm)

set_option maxHeartbeats 1600000 in
/-- C5 counterexample: `NeonWeatherRepository.save` accepts a record whose
`city` contains a quote, and the row it hands to the `INSERT` is the
original record itself — while the sanitized form of that city string is
different, so the stored row does contain the unsanitized value. -/
theorem neonWeatherSave_stores_unsanitized_cex :
    neonWeatherSave (fun _ => some 0) 0 [] wQuoteCity = .ok ([wQuoteCity], wQuoteCity)
    ∧ wQuoteCity.city = .str "O'Brien"
    ∧ sanitizeString wQuoteCity.city ≠ wQuoteCity.city := by
  have hsQ : sanitizeWeatherFields wQuoteCity
      = { wQuoteCity with city := .str "O\x5c'Brien" } := by decide
  have h1 : (requiredFields.filter
      (fun f => isMissing ((sanitizeWeatherFields wQuoteCity).get f))).isEmpty = true := by
    decide
  have hprov : checkProvider (sanitizeWeatherFields wQuoteCity) = .ok () := by decide
  have hts : checkTimestamp (fun _ => some 0) 0 (sanitizeWeatherFields wQuoteCity)
      = .ok () := by
    rw [hsQ]
    norm_num [checkTimestamp, jsDateMillis, wQuoteCity, wBoundary]
  have hran : validateNumericRanges (sanitizeWeatherFields wQuoteCity) = .ok () := by
    decide
  have hval : validateWeatherData (fun _ => some 0) 0 wQuoteCity
      = .ok (sanitizeWeatherFields wQuoteCity) := by
    unfold validateWeatherData
    simp only [h1, if_true, hprov, hts, hran]
  refine ⟨?_, rfl, by decide⟩
  simp only [neonWeatherSave, hval]
  rfl

/-- C5 (amended): string fields are sanitized on a shallow copy inside
validation — `validateWeatherData`/`validateNewsData` return the
sanitized copy — and the utils-based Sequelize news `create` stores the
row built from that sanitized copy; but `NeonWeatherRepository.save`
discards the validator's return value and inserts the caller's original
record, so in that path the stored row keeps the unsanitized strings. -/
theorem sanitize_on_copy_spec :
    (∀ (parseDate : String → Option ℚ) (now : ℚ) (store : List WeatherData)
        (d : WeatherData) (res : List WeatherData × WeatherData),
        neonWeatherSave parseDate now store d = .ok res → res = (store ++ [d], d))
    ∧ (∀ (parseDate : String → Option ℚ) (now : ℚ) (d s : WeatherData),
        validateWeatherData parseDate now d = .ok s → s = sanitizeWeatherFields d)
    ∧ (∀ (parseDate : String → Option ℚ) (d s : NewsData),
        validateNewsData parseDate d = .ok s → s = sanitizeNewsData d)
    ∧ (∀ (parseDate : String → Option ℚ) (now : String) (store : List NewsRow)
        (d : NewsData) (res : List NewsRow × NewsRow),
        sequelizeUtilsNewsCreate parseDate now store d = .ok res →
        res = (store ++ [sequelizeInsertRow now store (sanitizeNewsData d)],
               sequelizeInsertRow now store (sanitizeNewsData d))) := by
  refine ⟨?_, ?_, ?_, ?_⟩
  · intro parseDate now store d res h
    unfold neonWeatherSave at h
    split at h
    · exact Except.noConfusion h
    · injection h with h'
      exact h'.symm
  · exact fun parseDate now d s h => validateWeatherData_ok_eq parseDate now d s h
  · exact fun parseDate d s h => validateNewsData_ok_eq parseDate d s h
  · intro parseDate now store d res h
    unfold sequelizeUtilsNewsCreate at h
    cases hv : validateNewsData parseDate d with
    | error m => rw [hv] at h; exact Except.noConfusion h
    | ok s =>
      rw [hv] at h
      dsimp only at h
      have hs : s = sanitizeNewsData d := validateNewsData_ok_eq parseDate d s hv
      subst hs
      split at h
      · exact Except.noConfusion h
      · injection h with h'
        exact h'.symm

set_option maxHeartbeats 1600000 in
/-- Witness for `sanitize_on_copy_spec`: the Neon save of the quoted-city
record stores the original record. -/
theorem sanitize_on_copy_spec_witness :
    (([wQuoteCity], wQuoteCity) : List WeatherData × WeatherData)
      = (([] : List WeatherData) ++ [wQuoteCity], wQuoteCity) := by
  have hsQ : sanitizeWeatherFields wQuoteCity
      = { wQuoteCity with city := .str "O\x5c'Brien" } := by decide
  have h1 : (requiredFields.filter
      (fun f => isMissing ((sanitizeWeatherFields wQuoteCity).get f))).isEmpty = true := by
    decide
  have hprov : checkProvider (sanitizeWeatherFields wQuoteCity) = .ok () := by decide
  have hts : checkTimestamp (fun _ => some 0) 0 (sanitizeWeatherFields wQuoteCity)
      = .ok () := by
    rw [hsQ]
    norm_num [checkTimestamp, jsDateMillis, wQuoteCity, wBoundary]
  have hran : validateNumericRanges (sanitizeWeatherFields wQuoteCity) = .ok () := by
    decide
  have hval : validateWeatherData (fun _ => some 0) 0 wQuoteCity
      = .ok (sanitizeWeatherFields wQuoteCity) := by
    unfold validateWeatherData
    simp only [h1, if_true, hprov, hts, hran]
  have hsave : neonWeatherSave (fun _ => some 0) 0 [] wQuoteCity
      = .ok ([wQuoteCity], wQuoteCity) := by
    simp only [neonWeatherSave, hval]
    rfl
  exact sanitize_on_copy_spec.1 (fun _ => some 0) 0 [] wQuoteCity
    ([wQuoteCity], wQuoteCity) hsave
